import Mathlib

set_option maxRecDepth 100000

/-!
Shallow embedding of the SolarPaneler geometry/layout engine — the full
`SolarPanelMonitor` variant of `src/app.js`: panel normalization
(`loadPanelLayout`), default synthesis (`createDefaultPanels`), the
overlap resolver (`resolveOverlaps` / `panelsOverlap`), the drag
placement step (`handleMouseMove`), the power-to-color mapper
(`getColorForPower`), and the export/re-import path
(`exportPanelLayout` plus the local-layout branch of
`loadPanelLayout`).

Modelling conventions:
* JavaScript numbers are modelled as rationals `ℚ`; the code only
  adds, subtracts, multiplies, halves, divides and truncates them.
* A possibly-absent field is an `Option`; the JavaScript fallback
  `a || b` is modelled by explicit truthiness helpers in which `0`,
  `""` and an absent value are falsy.
* The in-place mutation of `this.panels` is modelled by explicit state
  passing over `List Panel`; the element order of the list is the
  iteration order of the JavaScript arrays.
-/

namespace SolarPaneler

/-- Canonical panel record: the fields written by `loadPanelLayout`
(`src/app.js`) that the rest of the engine reads.  The spread of the
original raw record is dropped because no modelled operation reads any
other field. -/
structure Panel where
  id : String
  serialNumber : Option String
  inverterSerialNumber : Option String
  x : ℚ
  y : ℚ
  width : ℚ
  height : ℚ
  planeRotation : ℚ
  deriving DecidableEq, Repr, Inhabited

/-- A raw panel record as it arrives from the layout API: every field
may be absent, and field names vary (`xCoordinate`/`x`,
`inverterSerialNumber`/`id`/`ID`/`serialNumber`/`SerialNumber`). -/
structure RawPanel where
  xCoordinate : Option ℚ := none
  x : Option ℚ := none
  yCoordinate : Option ℚ := none
  y : Option ℚ := none
  planeRotation : Option ℚ := none
  width : Option ℚ := none
  height : Option ℚ := none
  inverterSerialNumber : Option String := none
  id : Option String := none
  ID : Option String := none
  serialNumber : Option String := none
  SerialNumber : Option String := none
  deriving DecidableEq, Repr, Inhabited

/-- JavaScript `v || d` where `v` is a possibly-absent number:
`0` and an absent value are falsy. -/
def numOr (v : Option ℚ) (d : ℚ) : ℚ :=
  match v with
  | none => d
  | some q => if q = 0 then d else q

/-- JavaScript `v || d` where `v` is a possibly-absent string and `d`
is a (present) string: `""` and an absent value are falsy. -/
def strOrD (v : Option String) (d : String) : String :=
  match v with
  | none => d
  | some s => if s = "" then d else s

/-- JavaScript `v || d` where both operands are possibly-absent
strings. -/
def strOrOpt (v : Option String) (d : Option String) : Option String :=
  match v with
  | none => d
  | some s => if s = "" then d else some s

/-- JavaScript `a || b` for two numbers that are both present. -/
def jsNumOr (a b : ℚ) : ℚ := if a = 0 then b else a

/-- JavaScript `a || b` for two strings that are both present. -/
def jsStrOr (a b : String) : String := if a = "" then b else a

/-- Truncation of a rational toward zero, as JavaScript arithmetic on
integral values does (`Int.tdiv` is T-division). -/
def ratTrunc (q : ℚ) : ℤ := Int.tdiv q.num (q.den : ℤ)

/-- The JavaScript remainder `a % n`: `a - n * trunc (a / n)`, so the
result carries the sign of the dividend `a`. -/
def jsRem (a n : ℚ) : ℚ := a - n * (ratTrunc (a / n) : ℚ)

/-- `panelsOverlap` (src/app.js lines 911-916): strict axis-aligned
rectangle intersection on the stored (effective) sizes. -/
def panelsOverlap (panel1 panel2 : Panel) : Prop :=
  ¬ (panel1.x + panel1.width ≤ panel2.x ∨
     panel2.x + panel2.width ≤ panel1.x ∨
     panel1.y + panel1.height ≤ panel2.y ∨
     panel2.y + panel2.height ≤ panel1.y)

instance decPanelsOverlap (panel1 panel2 : Panel) : Decidable (panelsOverlap panel1 panel2) := by
  unfold panelsOverlap
  infer_instance

/-- The raw y-value `p.yCoordinate || p.y || 0` used by the `minY`
computation in `loadPanelLayout` (line 787). -/
def rawYOrZero (panel : RawPanel) : ℚ := numOr panel.yCoordinate (numOr panel.y 0)

/-- `minY`: minimum of the raw y-values (line 788).  On the empty list
the JavaScript `Math.min()` gives `+∞`; we return `0` — both make
`yOffset = 50` and no panel exists to be affected. -/
def minYOf (panelsArray : List RawPanel) : ℚ :=
  match panelsArray with
  | [] => 0
  | r :: rest => (rest.map rawYOrZero).foldl min (rawYOrZero r)

/-- `yOffset` (line 789): `minY < 0 ? |minY| + 50 : 50`. -/
def yOffsetOf (panelsArray : List RawPanel) : ℚ :=
  if minYOf panelsArray < 0 then -minYOf panelsArray + 50 else 50

/-- One record of `panelsArray.map((panel, index) => ...)` in
`loadPanelLayout` (lines 791-834): coordinate fallbacks, rotation via
JavaScript `%`, rotation-dependent effective size, identity
derivation. -/
def normalizePanel (yOffset : ℚ) (index : ℕ) (panel : RawPanel) : Panel :=
  let x := numOr panel.xCoordinate (numOr panel.x (((index % 10 : ℕ) : ℚ) * 120 + 50))
  let y := numOr panel.yCoordinate (numOr panel.y (((index / 10 : ℕ) : ℚ) * 120 + 50)) + yOffset
  let rotation := jsRem (numOr panel.planeRotation 0) 360
  let baseWidth := numOr panel.width 80
  let baseHeight := numOr panel.height 120
  let wh : ℚ × ℚ :=
    if rotation = 0 ∨ rotation = 180 then (baseWidth, baseHeight)
    else if rotation = 90 ∨ rotation = 270 then (baseHeight, baseWidth)
    else (max baseWidth baseHeight, max baseWidth baseHeight)
  { id := strOrD panel.inverterSerialNumber
      (strOrD panel.id (strOrD panel.ID ("panel-" ++ toString index)))
    serialNumber := strOrOpt panel.inverterSerialNumber
      (strOrOpt panel.serialNumber panel.SerialNumber)
    inverterSerialNumber := panel.inverterSerialNumber
    x := x
    y := y
    width := wh.1
    height := wh.2
    planeRotation := rotation }

/-- The normalization stage of the API branch of `loadPanelLayout`:
`panelsArray.map((panel, index) => ...)` with the shared `yOffset`. -/
def loadPanelsFromApi (panelsArray : List RawPanel) : List Panel :=
  panelsArray.enum.map fun e => normalizePanel (yOffsetOf panelsArray) e.1 e.2

/-- The accepted layout payload shapes (lines 770-779):
`{result: {panels: [...]}}` is checked first, then a direct array,
then `{panels: [...]}`, then `{Panels: [...]}`; anything else yields
zero panels. -/
inductive Payload where
  | resultWrapped (panels : List RawPanel)
  | direct (panels : List RawPanel)
  | panelsField (panels : List RawPanel)
  | capitalPanelsField (panels : List RawPanel)
  | unrecognized
  deriving DecidableEq, Repr

/-- `panelsArray` extraction from a payload (lines 770-779). -/
def extractPanelsArray : Payload → List RawPanel
  | Payload.resultWrapped l => l
  | Payload.direct l => l
  | Payload.panelsField l => l
  | Payload.capitalPanelsField l => l
  | Payload.unrecognized => []

/-- `createDefaultPanels` (lines 872-908): 12 synthesized panels in a
4-column grid, rotation alternating 0°/90° with the index parity,
20-unit spacing on top of the 120-unit maximal dimension. -/
def createDefaultPanels : List Panel :=
  (List.range 12).map fun i =>
    let baseWidth : ℚ := 80
    let baseHeight : ℚ := 120
    let spacingX : ℚ := 20
    let spacingY : ℚ := 20
    let col : ℚ := ((i % 4 : ℕ) : ℚ)
    let row : ℚ := ((i / 4 : ℕ) : ℚ)
    let rotation : ℚ := if i % 2 = 0 then 0 else 90
    let wh : ℚ × ℚ :=
      if rotation = 0 ∨ rotation = 180 then (baseWidth, baseHeight)
      else (baseHeight, baseWidth)
    { id := "panel-" ++ toString i
      serialNumber := some ("SN-" ++ toString i)
      inverterSerialNumber := none
      x := 50 + col * (max wh.1 baseHeight + spacingX)
      y := 50 + row * (max wh.2 baseHeight + spacingY)
      width := wh.1
      height := wh.2
      planeRotation := rotation }

/-- The displacement `resolveOverlaps` applies to one overlapping pair
(lines 935-968): separate along the axis of smaller overlap by
`(overlap + 10) / 2` each, clamping only the panel moved in the
negative direction at `0`. -/
def movePair (ps : List Panel) (i j : ℕ) (panel1 panel2 : Panel) : List Panel :=
  let padding : ℚ := 10
  let overlapX := min (panel1.x + panel1.width - panel2.x) (panel2.x + panel2.width - panel1.x)
  let overlapY := min (panel1.y + panel1.height - panel2.y) (panel2.y + panel2.height - panel1.y)
  if overlapX < overlapY then
    let moveAmount := (overlapX + padding) / 2
    if panel1.x < panel2.x then
      (ps.set i { panel1 with x := max 0 (panel1.x - moveAmount) }).set j
        { panel2 with x := panel2.x + moveAmount }
    else
      (ps.set j { panel2 with x := max 0 (panel2.x - moveAmount) }).set i
        { panel1 with x := panel1.x + moveAmount }
  else
    let moveAmount := (overlapY + padding) / 2
    if panel1.y < panel2.y then
      (ps.set i { panel1 with y := max 0 (panel1.y - moveAmount) }).set j
        { panel2 with y := panel2.y + moveAmount }
    else
      (ps.set j { panel2 with y := max 0 (panel2.y - moveAmount) }).set i
        { panel1 with y := panel1.y + moveAmount }

/-- The body of the inner double loop of `resolveOverlaps` for one
index pair `(i, j)`: re-read both panels from the current state, test
overlap, displace on overlap.  The second component is the
contribution to the `moved` flag. -/
def pairStep (ps : List Panel) (i j : ℕ) : List Panel × Bool :=
  match ps[i]?, ps[j]? with
  | some panel1, some panel2 =>
    if panelsOverlap panel1 panel2 then (movePair ps i j panel1 panel2, true) else (ps, false)
  | _, _ => (ps, false)

/-- Threading of the state and the `moved` flag through the pair
iteration. -/
def passStep (acc : List Panel × Bool) (pr : ℕ × ℕ) : List Panel × Bool :=
  let r := pairStep acc.1 pr.1 pr.2
  (r.1, acc.2 || r.2)

/-- The index pairs `(i, j)` with `i < j < n`, in the iteration order
of the double loop (lines 929-930). -/
def allPairs (n : ℕ) : List (ℕ × ℕ) :=
  (List.range n).flatMap fun i =>
    ((List.range n).filter fun j => decide (i < j)).map fun j => (i, j)

/-- One full pass of the `while` loop of `resolveOverlaps`: iterate
over all pairs, starting with `moved = false`. -/
def onePass (ps : List Panel) : List Panel × Bool :=
  (allPairs ps.length).foldl passStep (ps, false)

/-- The `while (moved && iterations < maxIterations)` loop of
`resolveOverlaps` with `fuel` passes remaining.  The second component
is `true` exactly when the loop stopped because a full pass produced
zero displacements, `false` when the iteration cap cut it off. -/
def resolveLoop : ℕ → List Panel → List Panel × Bool
  | 0, ps => (ps, false)
  | fuel + 1, ps =>
    if (onePass ps).2 then resolveLoop fuel (onePass ps).1 else ((onePass ps).1, true)

/-- `resolveOverlaps` (lines 919-979) with its `maxIterations = 100`. -/
def resolveOverlaps (ps : List Panel) : List Panel := (resolveLoop 100 ps).1

/-- The anonymous `{x, y, width, height}` candidate rectangle built by
`handleMouseMove` for the overlap test (lines 1328-1332); the identity
and rotation fields are never read by `panelsOverlap`. -/
def candidateRect (x y w h : ℚ) : Panel :=
  { id := "", serialNumber := none, inverterSerialNumber := none,
    x := x, y := y, width := w, height := h, planeRotation := 0 }

/-- The body of the `for (const panel of this.panels)` loop of
`handleMouseMove` (lines 1327-1359): skip the dragged panel, and on
overlap push the candidate out of this one neighbor along the
smaller-overlap axis with `padding = 5`. -/
def dragAdjust (dragIdx : ℕ) (dragWidth dragHeight : ℚ) (acc : ℚ × ℚ)
    (entry : ℕ × Panel) : ℚ × ℚ :=
  if entry.1 = dragIdx then acc
  else
    let panel := entry.2
    let x := acc.1
    let y := acc.2
    if panelsOverlap (candidateRect x y dragWidth dragHeight) panel then
      let padding : ℚ := 5
      let overlapX := min (x + dragWidth - panel.x) (panel.x + panel.width - x)
      let overlapY := min (y + dragHeight - panel.y) (panel.y + panel.height - y)
      if overlapX < overlapY then
        if x < panel.x then (panel.x - dragWidth - padding, y)
        else (panel.x + panel.width + padding, y)
      else
        if y < panel.y then (x, panel.y - dragHeight - padding)
        else (x, panel.y + panel.height + padding)
    else acc

/-- One drag placement step: the dragging branch of `handleMouseMove`
(lines 1315-1364).  `candX`/`candY` are the pointer position minus the
captured drag offset; the candidate is clamped to `≥ 0`, corrected
against each other panel in turn, and the dragged panel's position is
updated to the clamped result. -/
def handleMouseMove (ps : List Panel) (dragIdx : ℕ) (candX candY : ℚ) : List Panel :=
  match ps[dragIdx]? with
  | none => ps
  | some dragPanel =>
    let x0 := max 0 candX
    let y0 := max 0 candY
    let xy := ps.enum.foldl (dragAdjust dragIdx dragPanel.width dragPanel.height) (x0, y0)
    ps.set dragIdx { dragPanel with x := max 0 xy.1, y := max 0 xy.2 }

/-- The two return shapes of `getColorForPower`: the `'#000000'`
string and the `rgb(r, g, b)` string. -/
inductive Color where
  | black : Color
  | rgb (r g b : ℤ) : Color
  deriving DecidableEq, Repr

/-- The green channel of a produced color (black is `rgb(0, 0, 0)`). -/
def greenChannel : Color → ℤ
  | Color.black => 0
  | Color.rgb _ g _ => g

/-- `getColorForPower` (lines 1605-1626), with `this.maxPower` passed
explicitly. -/
def getColorForPower (maxPower power : ℚ) : Color :=
  if maxPower = 0 then Color.black
  else if power = 0 then Color.black
  else
    let ratio := min (power / maxPower) 1
    let minGreen : ℚ := 30
    let maxGreen : ℚ := 255
    let greenRange := maxGreen - minGreen
    Color.rgb ⌊(0 : ℚ)⌋ ⌊minGreen + greenRange * ratio⌋ ⌊(0 : ℚ)⌋

/-- One record of the serialized export (lines 1784-1795): exactly the
eight essential fields. -/
structure ExportRecord where
  id : String
  x : ℚ
  y : ℚ
  width : ℚ
  height : ℚ
  planeRotation : ℚ
  inverterSerialNumber : Option String
  serialNumber : Option String
  deriving DecidableEq, Repr, Inhabited

/-- The data produced by `exportPanelLayout` (lines 1777-1822),
stripped of the file/clipboard mechanics. -/
def exportPanelLayout (ps : List Panel) : List ExportRecord :=
  ps.map fun panel =>
    { id := panel.id
      x := panel.x
      y := panel.y
      width := panel.width
      height := panel.height
      planeRotation := panel.planeRotation
      inverterSerialNumber := panel.inverterSerialNumber
      serialNumber := panel.serialNumber }

/-- One record of the static local-layout branch of `loadPanelLayout`
(lines 742-755): `CONFIG.localLayout.map((panel, index) => ...)`. -/
def loadLocalRecord (index : ℕ) (panel : ExportRecord) : Panel :=
  { id := jsStrOr panel.id (strOrD panel.inverterSerialNumber ("panel-" ++ toString index))
    serialNumber := strOrOpt panel.serialNumber panel.inverterSerialNumber
    inverterSerialNumber := panel.inverterSerialNumber
    x := jsNumOr panel.x 0
    y := jsNumOr panel.y 0
    width := jsNumOr panel.width 80
    height := jsNumOr panel.height 120
    planeRotation := jsNumOr panel.planeRotation 0 }

/-- The static local-layout branch of `loadPanelLayout`. -/
def loadLocalLayout (records : List ExportRecord) : List Panel :=
  records.enum.map fun e => loadLocalRecord e.1 e.2

/-- The full local-layout load path (lines 739-756 and 839-845): load
the records, synthesize defaults when zero panels result, then run the
overlap resolver. -/
def loadPanelLayoutLocal (records : List ExportRecord) : List Panel :=
  let ps := loadLocalLayout records
  let ps := if ps.length = 0 then createDefaultPanels else ps
  resolveOverlaps ps

/-- The six fields of a panel that `resolveOverlaps` never writes
(everything except the position). -/
def fieldsEq (p q : Panel) : Prop :=
  p.id = q.id ∧ p.serialNumber = q.serialNumber ∧
  p.inverterSerialNumber = q.inverterSerialNumber ∧
  p.width = q.width ∧ p.height = q.height ∧ p.planeRotation = q.planeRotation

instance decFieldsEq (p q : Panel) : Decidable (fieldsEq p q) := by
  unfold fieldsEq
  infer_instance

/-- The panel set `qs` has the same length as `ps` and agrees with it
on every non-position field, element by element. -/
def framePreserved (ps qs : List Panel) : Prop :=
  qs.length = ps.length ∧
  ∀ i (hq : i < qs.length) (hp : i < ps.length), fieldsEq qs[i] ps[i]

/-- Both coordinates of every panel in the set are non-negative. -/
def allNonneg (ps : List Panel) : Prop := ∀ p ∈ ps, 0 ≤ p.x ∧ 0 ≤ p.y

instance decAllNonneg (ps : List Panel) : Decidable (allNonneg ps) := by
  unfold allNonneg
  infer_instance


/-! Concrete values used by witnesses and counterexamples. -/

/-- The C8 scenario record of the spec:
`{xCoordinate:-100, yCoordinate:-50, planeRotation:90, inverterSerialNumber:"A1"}`. -/
def c8raw : RawPanel :=
  { xCoordinate := some (-100), yCoordinate := some (-50),
    planeRotation := some 90, inverterSerialNumber := some "A1" }

/-- A raw record with a negative explicit rotation. -/
def c7raw : RawPanel := { planeRotation := some (-90) }

/-- A raw record with a positive explicit rotation beyond 360. -/
def c7pos : RawPanel := { planeRotation := some 450 }

/-- A raw record whose explicit coordinates are `0` (falsy). -/
def c9raw : RawPanel := { xCoordinate := some 0, yCoordinate := some 0 }

/-- A raw record with a negative explicit `xCoordinate`. -/
def cexNegX : RawPanel := { xCoordinate := some (-100) }

/-- Concrete panel at the origin, 100 by 100. -/
def cexA : Panel :=
  { id := "a", serialNumber := none, inverterSerialNumber := none,
    x := 0, y := 0, width := 100, height := 100, planeRotation := 0 }

/-- Concrete panel at x = 105, disjoint from `cexA`. -/
def cexB : Panel :=
  { id := "b", serialNumber := none, inverterSerialNumber := none,
    x := 105, y := 0, width := 100, height := 100, planeRotation := 0 }

/-- Concrete 50 by 50 panel far away from `cexA` and `cexB`. -/
def cexD : Panel :=
  { id := "d", serialNumber := none, inverterSerialNumber := none,
    x := 300, y := 300, width := 50, height := 50, planeRotation := 0 }

/-- Concrete panel at the origin with the default 80 by 120 size. -/
def cexO1 : Panel :=
  { id := "p1", serialNumber := none, inverterSerialNumber := none,
    x := 0, y := 0, width := 80, height := 120, planeRotation := 0 }

/-- A second panel coincident with `cexO1` (an overlapping pair). -/
def cexO2 : Panel :=
  { id := "p2", serialNumber := none, inverterSerialNumber := none,
    x := 0, y := 0, width := 80, height := 120, planeRotation := 0 }

/-! Basic facts about the overlap test. -/

theorem panelsOverlap_symm {p q : Panel} (h : panelsOverlap p q) : panelsOverlap q p := by
  unfold panelsOverlap at *
  tauto

theorem panelsOverlap_congr {p q p2 q2 : Panel}
    (h1x : p.x = p2.x) (h1y : p.y = p2.y) (h1w : p.width = p2.width) (h1h : p.height = p2.height)
    (h2x : q.x = q2.x) (h2y : q.y = q2.y) (h2w : q.width = q2.width) (h2h : q.height = q2.height) :
    panelsOverlap p q ↔ panelsOverlap p2 q2 := by
  unfold panelsOverlap
  rw [h1x, h1y, h1w, h1h, h2x, h2y, h2w, h2h]

theorem overlap_bounds {p1 p2 : Panel} (h : panelsOverlap p1 p2) :
    p2.x < p1.x + p1.width ∧ p1.x < p2.x + p2.width ∧
    p2.y < p1.y + p1.height ∧ p1.y < p2.y + p2.height := by
  unfold panelsOverlap at h
  push_neg at h
  exact h

/-! Projections of the normalizer. -/

theorem loadPanelsFromApi_length (l : List RawPanel) :
    (loadPanelsFromApi l).length = l.length := by
  simp [loadPanelsFromApi, List.length_map, List.enum_length]

theorem loadPanelsFromApi_getElem (l : List RawPanel) (i : ℕ) (h : i < l.length) :
    (loadPanelsFromApi l)[i]! = normalizePanel (yOffsetOf l) i l[i] := by
  have hlen : i < (loadPanelsFromApi l).length := by
    rw [loadPanelsFromApi_length]
    exact h
  rw [getElem!_pos (loadPanelsFromApi l) i hlen]
  unfold loadPanelsFromApi
  rw [List.getElem_map, List.getElem_enum]

/-! The JavaScript remainder on non-negative dividends. -/

theorem ratTrunc_eq_floor_of_nonneg {q : ℚ} (h : 0 ≤ q) : ratTrunc q = ⌊q⌋ := by
  unfold ratTrunc
  rw [Int.tdiv_eq_ediv (Rat.num_nonneg.mpr h) (Int.natCast_nonneg _)]
  exact Rat.floor_def.symm

theorem jsRem_nonneg_lt {a : ℚ} (ha : 0 ≤ a) : 0 ≤ jsRem a 360 ∧ jsRem a 360 < 360 := by
  have hq : (0 : ℚ) ≤ a / 360 := by positivity
  unfold jsRem
  rw [ratTrunc_eq_floor_of_nonneg hq]
  have h1 : ((⌊a / 360⌋ : ℚ)) ≤ a / 360 := Int.floor_le _
  have h2 : a / 360 < (⌊a / 360⌋ : ℚ) + 1 := Int.lt_floor_add_one _
  have h3 : (360 : ℚ) * (a / 360) = a := mul_div_cancel₀ a (by norm_num)
  constructor <;> linarith

/-! The color mapper. -/

theorem getColorForPower_pos {maxPower power : ℚ} (hm : maxPower ≠ 0) (hp : power ≠ 0) :
    getColorForPower maxPower power =
      Color.rgb 0 ⌊(30 : ℚ) + 225 * min (power / maxPower) 1⌋ 0 := by
  unfold getColorForPower
  rw [if_neg hm, if_neg hp]
  show Color.rgb ⌊(0 : ℚ)⌋ ⌊(30 : ℚ) + (255 - 30) * min (power / maxPower) 1⌋ ⌊(0 : ℚ)⌋ = _
  norm_num

/-- Claim C6: with a positive maximum, zero power maps to black, full
power maps to `rgb(0, 255, 0)`, and the green channel is monotone
non-decreasing in the power. -/
theorem claim6_color_mapping (maxPower p1 p2 : ℚ) (hm : 0 < maxPower)
    (hp1 : 0 ≤ p1) (h12 : p1 ≤ p2) :
    getColorForPower maxPower 0 = Color.black ∧
    getColorForPower maxPower maxPower = Color.rgb 0 255 0 ∧
    greenChannel (getColorForPower maxPower p1) ≤ greenChannel (getColorForPower maxPower p2) := by
  have hm0 : maxPower ≠ 0 := ne_of_gt hm
  refine ⟨?_, ?_, ?_⟩
  · unfold getColorForPower
    rw [if_neg hm0, if_pos rfl]
  · rw [getColorForPower_pos hm0 hm0, div_self hm0]
    norm_num
  · by_cases h1 : p1 = 0
    · subst h1
      by_cases h2 : p2 = 0
      · subst h2
        exact le_refl _
      · have hzero : getColorForPower maxPower 0 = Color.black := by
          unfold getColorForPower
          rw [if_neg hm0, if_pos rfl]
        rw [hzero, getColorForPower_pos hm0 h2]
        show (0 : ℤ) ≤ ⌊(30 : ℚ) + 225 * min (p2 / maxPower) 1⌋
        have hr : (0 : ℚ) ≤ min (p2 / maxPower) 1 :=
          le_min (div_nonneg (le_trans hp1 h12) hm.le) zero_le_one
        refine Int.le_floor.mpr ?_
        push_cast
        linarith
    · have h2 : p2 ≠ 0 := by
        intro h
        exact h1 (le_antisymm (h ▸ h12) hp1)
      rw [getColorForPower_pos hm0 h1, getColorForPower_pos hm0 h2]
      show ⌊(30 : ℚ) + 225 * min (p1 / maxPower) 1⌋ ≤ ⌊(30 : ℚ) + 225 * min (p2 / maxPower) 1⌋
      apply Int.floor_mono
      have hdiv : p1 / maxPower ≤ p2 / maxPower := div_le_div_of_nonneg_right h12 hm.le
      have hmin := min_le_min hdiv (le_refl (1 : ℚ))
      linarith

theorem claim6_color_mapping_witness :
    getColorForPower 400 0 = Color.black ∧
    getColorForPower 400 400 = Color.rgb 0 255 0 ∧
    greenChannel (getColorForPower 400 100) ≤ greenChannel (getColorForPower 400 200) :=
  claim6_color_mapping 400 100 200 (by norm_num) (by norm_num) (by norm_num)

/-- Claim C4: `createDefaultPanels` produces exactly 12 panels on the
4-column grid `x = 50 + (i mod 4)·(120 + 20)`, `y = 50 + (i div 4)·(120 + 20)`,
with rotation alternating 0°/90° by index parity, and the 12 effective
rectangles are pairwise non-overlapping. -/
theorem claim4_default_panels :
    createDefaultPanels.length = 12 ∧
    (∀ i : Fin 12,
      (createDefaultPanels[(i : ℕ)]!).planeRotation = (if (i : ℕ) % 2 = 0 then 0 else 90) ∧
      (createDefaultPanels[(i : ℕ)]!).x = 50 + (((i : ℕ) % 4 : ℕ) : ℚ) * (120 + 20) ∧
      (createDefaultPanels[(i : ℕ)]!).y = 50 + (((i : ℕ) / 4 : ℕ) : ℚ) * (120 + 20)) ∧
    createDefaultPanels.Pairwise fun p q => ¬ panelsOverlap p q := by
  with_unfolding_all decide

/-- Claim C8: normalizing the payload
`{result:{panels:[{xCoordinate:-100, yCoordinate:-50, planeRotation:90,
inverterSerialNumber:"A1"}]}}` yields one panel with `y = 50 ≥ 0`
(`yOffset = 100`), `planeRotation = 90`, and the nominal 80 by 120
dimensions swapped to an effective 120 by 80. -/
theorem claim8_scenario :
    (loadPanelsFromApi (extractPanelsArray (Payload.resultWrapped [c8raw]))).length = 1 ∧
    0 ≤ (loadPanelsFromApi (extractPanelsArray (Payload.resultWrapped [c8raw])))[0]!.y ∧
    (loadPanelsFromApi (extractPanelsArray (Payload.resultWrapped [c8raw])))[0]!.y = 50 ∧
    (loadPanelsFromApi (extractPanelsArray (Payload.resultWrapped [c8raw])))[0]!.planeRotation = 90 ∧
    (loadPanelsFromApi (extractPanelsArray (Payload.resultWrapped [c8raw])))[0]!.width = 120 ∧
    (loadPanelsFromApi (extractPanelsArray (Payload.resultWrapped [c8raw])))[0]!.height = 80 := by
  with_unfolding_all decide

/-- Claim C7 counterexample: the raw rotation `-90` normalizes to
`-90` — the JavaScript remainder keeps the dividend's sign — which is
neither in `[0, 360)` nor equal to the mathematical `-90 mod 360 = 270`. -/
theorem claim7_counterexample :
    (loadPanelsFromApi [c7raw])[0]!.planeRotation = -90 ∧
    ¬ (0 ≤ (loadPanelsFromApi [c7raw])[0]!.planeRotation) ∧
    (loadPanelsFromApi [c7raw])[0]!.planeRotation ≠ 270 := by
  with_unfolding_all decide

/-- Claim C7 (amended): the normalized rotation equals the JavaScript
truncating remainder `(planeRotation || 0) % 360`, and lies in
`[0, 360)` whenever the selected raw value is non-negative (in
particular when the field is absent or `0`); a negative raw value
keeps its sign. -/
theorem claim7_amended (l : List RawPanel) (i : ℕ) (h : i < l.length) :
    (loadPanelsFromApi l)[i]!.planeRotation = jsRem (numOr l[i]!.planeRotation 0) 360 ∧
    (0 ≤ numOr l[i]!.planeRotation 0 →
      0 ≤ (loadPanelsFromApi l)[i]!.planeRotation ∧
      (loadPanelsFromApi l)[i]!.planeRotation < 360) := by
  rw [loadPanelsFromApi_getElem l i h, getElem!_pos l i h]
  have hrot : (normalizePanel (yOffsetOf l) i l[i]).planeRotation
      = jsRem (numOr (l[i]).planeRotation 0) 360 := rfl
  rw [hrot]
  exact ⟨rfl, fun hnn => jsRem_nonneg_lt hnn⟩

theorem claim7_amended_witness :
    (loadPanelsFromApi [c7pos])[0]!.planeRotation
      = jsRem (numOr (([c7pos] : List RawPanel))[0]!.planeRotation 0) 360 ∧
    (0 ≤ (loadPanelsFromApi [c7pos])[0]!.planeRotation ∧
      (loadPanelsFromApi [c7pos])[0]!.planeRotation < 360) :=
  ⟨(claim7_amended [c7pos] 0 (by decide)).1,
   (claim7_amended [c7pos] 0 (by decide)).2 (by with_unfolding_all decide)⟩

/-- Claim C9: a raw coordinate that is explicitly `0` is falsy under
`||`, so the normalizer treats it as missing and uses the grid
fallback `x = (i mod 10)·120 + 50` (and the row fallback plus
`yOffset` for `y`). -/
theorem claim9_zero_coordinate_fallback (l : List RawPanel) (i : ℕ) (h : i < l.length)
    (hxc : l[i]!.xCoordinate = some 0 ∨ l[i]!.xCoordinate = none)
    (hx : l[i]!.x = some 0 ∨ l[i]!.x = none)
    (hyc : l[i]!.yCoordinate = some 0 ∨ l[i]!.yCoordinate = none)
    (hy : l[i]!.y = some 0 ∨ l[i]!.y = none) :
    (loadPanelsFromApi l)[i]!.x = ((i % 10 : ℕ) : ℚ) * 120 + 50 ∧
    (loadPanelsFromApi l)[i]!.y = ((i / 10 : ℕ) : ℚ) * 120 + 50 + yOffsetOf l := by
  rw [getElem!_pos l i h] at hxc hx hyc hy
  rw [loadPanelsFromApi_getElem l i h]
  constructor
  · have hxv : (normalizePanel (yOffsetOf l) i l[i]).x
        = numOr (l[i]).xCoordinate (numOr (l[i]).x (((i % 10 : ℕ) : ℚ) * 120 + 50)) := rfl
    rw [hxv]
    rcases hxc with h1 | h1 <;> rcases hx with h2 | h2 <;> simp [numOr, h1, h2]
  · have hyv : (normalizePanel (yOffsetOf l) i l[i]).y
        = numOr (l[i]).yCoordinate (numOr (l[i]).y (((i / 10 : ℕ) : ℚ) * 120 + 50)) + yOffsetOf l := rfl
    rw [hyv]
    rcases hyc with h1 | h1 <;> rcases hy with h2 | h2 <;> simp [numOr, h1, h2]

theorem claim9_zero_coordinate_fallback_witness :
    (loadPanelsFromApi [c9raw])[0]!.x = ((0 % 10 : ℕ) : ℚ) * 120 + 50 ∧
    (loadPanelsFromApi [c9raw])[0]!.y = ((0 / 10 : ℕ) : ℚ) * 120 + 50 + yOffsetOf [c9raw] :=
  claim9_zero_coordinate_fallback [c9raw] 0 (by decide)
    (by with_unfolding_all decide) (by with_unfolding_all decide)
    (by with_unfolding_all decide) (by with_unfolding_all decide)


/-! The overlap resolver: structure of one pass. -/

theorem pairStep_cases (ps : List Panel) (i j : ℕ) :
    pairStep ps i j = (ps, false) ∨
    ∃ p1 p2, ps[i]? = some p1 ∧ ps[j]? = some p2 ∧ panelsOverlap p1 p2 ∧
      pairStep ps i j = (movePair ps i j p1 p2, true) := by
  unfold pairStep
  cases hi : ps[i]? with
  | none => exact Or.inl rfl
  | some p1 =>
    cases hj : ps[j]? with
    | none => exact Or.inl rfl
    | some p2 =>
      by_cases hov : panelsOverlap p1 p2
      · refine Or.inr ⟨p1, p2, rfl, rfl, hov, ?_⟩
        show (if panelsOverlap p1 p2 then (movePair ps i j p1 p2, true) else (ps, false)) = _
        rw [if_pos hov]
      · refine Or.inl ?_
        show (if panelsOverlap p1 p2 then (movePair ps i j p1 p2, true) else (ps, false)) = _
        rw [if_neg hov]

theorem pairStep_snd_false {ps : List Panel} {i j : ℕ}
    (h : (pairStep ps i j).2 = false) : pairStep ps i j = (ps, false) := by
  rcases pairStep_cases ps i j with h1 | ⟨p1, p2, _, _, _, h1⟩
  · exact h1
  · rw [h1] at h
    simp at h

theorem pairStep_not_overlap {ps : List Panel} {i j : ℕ} {p1 p2 : Panel}
    (h : (pairStep ps i j).2 = false) (hi : ps[i]? = some p1) (hj : ps[j]? = some p2) :
    ¬ panelsOverlap p1 p2 := by
  intro hov
  have heq : pairStep ps i j = (movePair ps i j p1 p2, true) := by
    simp [pairStep, hi, hj, hov]
  rw [heq] at h
  simp at h

theorem pairStep_of_not_overlap {ps : List Panel} {i j : ℕ} {p1 p2 : Panel}
    (hi : ps[i]? = some p1) (hj : ps[j]? = some p2) (hov : ¬ panelsOverlap p1 p2) :
    pairStep ps i j = (ps, false) := by
  simp [pairStep, hi, hj, hov]

theorem foldl_passStep_true (L : List (ℕ × ℕ)) (ps : List Panel) :
    (L.foldl passStep (ps, true)).2 = true := by
  induction L generalizing ps with
  | nil => rfl
  | cons pr L ih =>
    have hstep : passStep (ps, true) pr = ((pairStep ps pr.1 pr.2).1, true) := by
      simp [passStep]
    rw [List.foldl_cons, hstep]
    exact ih _

theorem foldl_passStep_false {L : List (ℕ × ℕ)} {ps : List Panel}
    (h : (L.foldl passStep (ps, false)).2 = false) :
    (L.foldl passStep (ps, false)).1 = ps ∧
    ∀ pr ∈ L, (pairStep ps pr.1 pr.2).2 = false := by
  induction L generalizing ps with
  | nil => exact ⟨rfl, by simp⟩
  | cons pr L ih =>
    rw [List.foldl_cons] at h ⊢
    by_cases hm : (pairStep ps pr.1 pr.2).2 = true
    · exfalso
      have hstep : passStep (ps, false) pr = ((pairStep ps pr.1 pr.2).1, true) := by
        simp [passStep, hm]
      rw [hstep, foldl_passStep_true] at h
      exact Bool.true_eq_false.mp h
    · have hm2 : (pairStep ps pr.1 pr.2).2 = false := Bool.not_eq_true _ |>.mp hm
      have heq : pairStep ps pr.1 pr.2 = (ps, false) := pairStep_snd_false hm2
      have hstep : passStep (ps, false) pr = (ps, false) := by
        simp [passStep, heq]
      rw [hstep] at h ⊢
      obtain ⟨h1, h2⟩ := ih h
      refine ⟨h1, ?_⟩
      intro q hq
      rcases List.mem_cons.mp hq with rfl | hq2
      · exact hm2
      · exact h2 q hq2

theorem foldl_passStep_id {L : List (ℕ × ℕ)} {ps : List Panel}
    (h : ∀ pr ∈ L, pairStep ps pr.1 pr.2 = (ps, false)) :
    L.foldl passStep (ps, false) = (ps, false) := by
  induction L with
  | nil => rfl
  | cons pr L ih =>
    rw [List.foldl_cons]
    have hstep : passStep (ps, false) pr = (ps, false) := by
      simp [passStep, h pr (List.mem_cons_self pr L)]
    rw [hstep]
    exact ih fun q hq => h q (List.mem_cons_of_mem pr hq)

theorem mem_allPairs {n i j : ℕ} : (i, j) ∈ allPairs n ↔ i < n ∧ j < n ∧ i < j := by
  unfold allPairs
  simp only [List.mem_flatMap, List.mem_map, List.mem_filter, List.mem_range,
    decide_eq_true_iff, Prod.mk.injEq]
  constructor
  · rintro ⟨a, ha, b, ⟨hb, hab⟩, rfl, rfl⟩
    exact ⟨ha, hb, hab⟩
  · rintro ⟨hi, hj, hij⟩
    exact ⟨i, hi, j, ⟨hj, hij⟩, rfl, rfl⟩

theorem onePass_snd_false {ps : List Panel} (h : (onePass ps).2 = false) :
    (onePass ps).1 = ps ∧
    ∀ i j (hi : i < ps.length) (hj : j < ps.length), i < j → ¬ panelsOverlap ps[i] ps[j] := by
  obtain ⟨h1, h2⟩ := @foldl_passStep_false (allPairs ps.length) ps h
  refine ⟨h1, ?_⟩
  intro i j hi hj hij
  have hmem : (i, j) ∈ allPairs ps.length := mem_allPairs.mpr ⟨hi, hj, hij⟩
  exact pairStep_not_overlap (h2 (i, j) hmem)
    (List.getElem?_eq_getElem hi) (List.getElem?_eq_getElem hj)

theorem onePass_of_separated {ps : List Panel}
    (h : ∀ i j (hi : i < ps.length) (hj : j < ps.length), i < j → ¬ panelsOverlap ps[i] ps[j]) :
    onePass ps = (ps, false) := by
  unfold onePass
  apply foldl_passStep_id
  intro pr hpr
  obtain ⟨i, j⟩ := pr
  obtain ⟨hi, hj, hij⟩ := mem_allPairs.mp hpr
  exact pairStep_of_not_overlap (List.getElem?_eq_getElem hi) (List.getElem?_eq_getElem hj)
    (h i j hi hj hij)

/-! The resolver loop. -/

theorem resolveLoop_converged (fuel : ℕ) :
    ∀ ps : List Panel, (resolveLoop fuel ps).2 = true →
    ∀ i j, i < j → j < (resolveLoop fuel ps).1.length →
      ¬ panelsOverlap ((resolveLoop fuel ps).1[i]!) ((resolveLoop fuel ps).1[j]!) := by
  induction fuel with
  | zero =>
    intro ps h
    exact absurd h (by simp [resolveLoop])
  | succ fuel ih =>
    intro ps h i j hij hj
    cases hm : (onePass ps).2 with
    | true =>
      have hres : resolveLoop (fuel + 1) ps = resolveLoop fuel (onePass ps).1 := by
        simp [resolveLoop, hm]
      rw [hres] at h hj ⊢
      exact ih (onePass ps).1 h i j hij hj
    | false =>
      obtain ⟨hfix, hsep⟩ := onePass_snd_false hm
      have hres : resolveLoop (fuel + 1) ps = (ps, true) := by
        simp [resolveLoop, hm, hfix]
      rw [hres] at hj ⊢
      have hi : i < ps.length := lt_trans hij hj
      rw [getElem!_pos ps i hi, getElem!_pos ps j hj]
      exact hsep i j hi hj hij

/-- Claim C1: if `resolveOverlaps` stops because a full pass produced
zero displacements (the converged flag of `resolveLoop 100`, i.e. not
the 100-pass cap), then every pair of distinct panels in the resulting
set fails the `panelsOverlap` test. -/
theorem claim1_converged_resolver_separates (ps : List Panel)
    (h : (resolveLoop 100 ps).2 = true) :
    ∀ i j, i ≠ j → i < (resolveOverlaps ps).length → j < (resolveOverlaps ps).length →
      ¬ panelsOverlap ((resolveOverlaps ps)[i]!) ((resolveOverlaps ps)[j]!) := by
  intro i j hne hi hj
  rcases Nat.lt_or_ge i j with hij | hge
  · exact resolveLoop_converged 100 ps h i j hij hj
  · have hji : j < i := lt_of_le_of_ne hge (Ne.symm hne)
    intro hov
    exact resolveLoop_converged 100 ps h j i hji hi (panelsOverlap_symm hov)

theorem claim1_converged_resolver_separates_witness :
    (resolveLoop 100 [cexA, cexB]).2 = true ∧
    ¬ panelsOverlap ((resolveOverlaps [cexA, cexB])[0]!) ((resolveOverlaps [cexA, cexB])[1]!) :=
  ⟨by with_unfolding_all decide,
   claim1_converged_resolver_separates [cexA, cexB] (by with_unfolding_all decide) 0 1
     (by decide) (by with_unfolding_all decide) (by with_unfolding_all decide)⟩


/-! Frame reasoning: the resolver only writes positions. -/

theorem fieldsEq_refl (p : Panel) : fieldsEq p p := by
  unfold fieldsEq
  exact ⟨rfl, rfl, rfl, rfl, rfl, rfl⟩

theorem fieldsEq_symm {p q : Panel} (h : fieldsEq p q) : fieldsEq q p := by
  unfold fieldsEq at *
  obtain ⟨h1, h2, h3, h4, h5, h6⟩ := h
  exact ⟨h1.symm, h2.symm, h3.symm, h4.symm, h5.symm, h6.symm⟩

theorem fieldsEq_trans {p q r : Panel} (h1 : fieldsEq p q) (h2 : fieldsEq q r) : fieldsEq p r := by
  unfold fieldsEq at *
  obtain ⟨a1, a2, a3, a4, a5, a6⟩ := h1
  obtain ⟨b1, b2, b3, b4, b5, b6⟩ := h2
  exact ⟨a1.trans b1, a2.trans b2, a3.trans b3, a4.trans b4, a5.trans b5, a6.trans b6⟩

theorem fieldsEq_update_x (p : Panel) (v : ℚ) : fieldsEq { p with x := v } p := by
  unfold fieldsEq
  exact ⟨rfl, rfl, rfl, rfl, rfl, rfl⟩

theorem fieldsEq_update_y (p : Panel) (v : ℚ) : fieldsEq { p with y := v } p := by
  unfold fieldsEq
  exact ⟨rfl, rfl, rfl, rfl, rfl, rfl⟩

theorem framePreserved_refl (ps : List Panel) : framePreserved ps ps :=
  ⟨rfl, fun _ _ _ => fieldsEq_refl _⟩

theorem framePreserved_trans {ps qs rs : List Panel}
    (h1 : framePreserved ps qs) (h2 : framePreserved qs rs) : framePreserved ps rs := by
  obtain ⟨l1, f1⟩ := h1
  obtain ⟨l2, f2⟩ := h2
  refine ⟨l2.trans l1, ?_⟩
  intro i hr hp
  have hq : i < qs.length := by
    rw [l1]
    exact hp
  exact fieldsEq_trans (f2 i hr hq) (f1 i hq hp)

theorem framePreserved_set {ps : List Panel} {m : ℕ} {b : Panel}
    (hm : m < ps.length) (hb : fieldsEq b ps[m]) : framePreserved ps (ps.set m b) := by
  refine ⟨List.length_set ps m b, ?_⟩
  intro i hqi hpi
  by_cases h : i = m
  · subst h
    rw [List.getElem_set_self]
    exact hb
  · rw [List.getElem_set_ne (Ne.symm h)]
    exact fieldsEq_refl _

theorem framePreserved_set2 {ps : List Panel} {m k : ℕ} {b c : Panel}
    (hm : m < ps.length) (hk : k < ps.length)
    (hb : fieldsEq b ps[m]) (hc : fieldsEq c ps[k]) :
    framePreserved ps ((ps.set m b).set k c) := by
  refine framePreserved_trans (framePreserved_set hm hb) (framePreserved_set ?_ ?_)
  · rw [List.length_set]
    exact hk
  · by_cases h : k = m
    · subst h
      rw [List.getElem_set_self]
      exact fieldsEq_trans hc (fieldsEq_symm hb)
    · rw [List.getElem_set_ne (Ne.symm h)]
      exact hc

theorem framePreserved_movePair {ps : List Panel} {i j : ℕ} {p1 p2 : Panel}
    (hi : ps[i]? = some p1) (hj : ps[j]? = some p2) :
    framePreserved ps (movePair ps i j p1 p2) := by
  obtain ⟨hi2, hp1⟩ := List.getElem?_eq_some.mp hi
  obtain ⟨hj2, hp2⟩ := List.getElem?_eq_some.mp hj
  unfold movePair
  dsimp only
  split
  · split
    · refine framePreserved_set2 hi2 hj2 ?_ ?_
      · rw [hp1]
        exact fieldsEq_update_x _ _
      · rw [hp2]
        exact fieldsEq_update_x _ _
    · refine framePreserved_set2 hj2 hi2 ?_ ?_
      · rw [hp2]
        exact fieldsEq_update_x _ _
      · rw [hp1]
        exact fieldsEq_update_x _ _
  · split
    · refine framePreserved_set2 hi2 hj2 ?_ ?_
      · rw [hp1]
        exact fieldsEq_update_y _ _
      · rw [hp2]
        exact fieldsEq_update_y _ _
    · refine framePreserved_set2 hj2 hi2 ?_ ?_
      · rw [hp2]
        exact fieldsEq_update_y _ _
      · rw [hp1]
        exact fieldsEq_update_y _ _

theorem framePreserved_pairStep (ps : List Panel) (i j : ℕ) :
    framePreserved ps (pairStep ps i j).1 := by
  rcases pairStep_cases ps i j with h | ⟨p1, p2, hi, hj, _, h⟩
  · rw [h]
    exact framePreserved_refl ps
  · rw [h]
    exact framePreserved_movePair hi hj

theorem framePreserved_foldl (L : List (ℕ × ℕ)) (ps : List Panel) (b : Bool) :
    framePreserved ps (L.foldl passStep (ps, b)).1 := by
  induction L generalizing ps b with
  | nil => exact framePreserved_refl ps
  | cons pr L ih =>
    rw [List.foldl_cons]
    have hstep : passStep (ps, b) pr
        = ((pairStep ps pr.1 pr.2).1, b || (pairStep ps pr.1 pr.2).2) := rfl
    rw [hstep]
    exact framePreserved_trans (framePreserved_pairStep ps pr.1 pr.2) (ih _ _)

theorem framePreserved_onePass (ps : List Panel) : framePreserved ps (onePass ps).1 :=
  framePreserved_foldl _ ps false

theorem framePreserved_resolveLoop (fuel : ℕ) :
    ∀ ps : List Panel, framePreserved ps (resolveLoop fuel ps).1 := by
  induction fuel with
  | zero => exact fun ps => framePreserved_refl ps
  | succ fuel ih =>
    intro ps
    cases hm : (onePass ps).2 with
    | true =>
      have hres : resolveLoop (fuel + 1) ps = resolveLoop fuel (onePass ps).1 := by
        simp [resolveLoop, hm]
      rw [hres]
      exact framePreserved_trans (framePreserved_onePass ps) (ih _)
    | false =>
      have hres : resolveLoop (fuel + 1) ps = ((onePass ps).1, true) := by
        simp [resolveLoop, hm]
      rw [hres]
      exact framePreserved_onePass ps

/-- Claim C10: `resolveOverlaps` mutates only positions — the panel
count and every panel's `id`, `serialNumber`, `inverterSerialNumber`,
`width`, `height` and `planeRotation` are unchanged. -/
theorem claim10_resolver_frame (ps : List Panel) :
    (resolveOverlaps ps).length = ps.length ∧
    ∀ i, i < ps.length →
      (resolveOverlaps ps)[i]!.id = ps[i]!.id ∧
      (resolveOverlaps ps)[i]!.serialNumber = ps[i]!.serialNumber ∧
      (resolveOverlaps ps)[i]!.inverterSerialNumber = ps[i]!.inverterSerialNumber ∧
      (resolveOverlaps ps)[i]!.width = ps[i]!.width ∧
      (resolveOverlaps ps)[i]!.height = ps[i]!.height ∧
      (resolveOverlaps ps)[i]!.planeRotation = ps[i]!.planeRotation := by
  obtain ⟨hlen, hall⟩ := framePreserved_resolveLoop 100 ps
  refine ⟨hlen, ?_⟩
  intro i hi
  have hi2 : i < (resolveOverlaps ps).length := by
    unfold resolveOverlaps
    rw [hlen]
    exact hi
  have h := hall i hi2 hi
  unfold fieldsEq at h
  rw [getElem!_pos (resolveOverlaps ps) i hi2, getElem!_pos ps i hi]
  exact h

theorem claim10_resolver_frame_witness :
    (resolveOverlaps [cexO1, cexO2]).length = [cexO1, cexO2].length ∧
    ((resolveOverlaps [cexO1, cexO2])[0]!.id = [cexO1, cexO2][0]!.id ∧
     (resolveOverlaps [cexO1, cexO2])[0]!.serialNumber = [cexO1, cexO2][0]!.serialNumber ∧
     (resolveOverlaps [cexO1, cexO2])[0]!.inverterSerialNumber
       = [cexO1, cexO2][0]!.inverterSerialNumber ∧
     (resolveOverlaps [cexO1, cexO2])[0]!.width = [cexO1, cexO2][0]!.width ∧
     (resolveOverlaps [cexO1, cexO2])[0]!.height = [cexO1, cexO2][0]!.height ∧
     (resolveOverlaps [cexO1, cexO2])[0]!.planeRotation = [cexO1, cexO2][0]!.planeRotation) :=
  ⟨(claim10_resolver_frame [cexO1, cexO2]).1,
   (claim10_resolver_frame [cexO1, cexO2]).2 0 (by decide)⟩


/-! Non-negativity preservation. -/

theorem allNonneg_set {ps : List Panel} {m : ℕ} {b : Panel}
    (hps : allNonneg ps) (hb : 0 ≤ b.x ∧ 0 ≤ b.y) : allNonneg (ps.set m b) := by
  intro p hp
  rcases List.mem_or_eq_of_mem_set hp with hp2 | rfl
  · exact hps p hp2
  · exact hb

theorem mem_of_getElem_eq_some {ps : List Panel} {i : ℕ} {p : Panel}
    (h : ps[i]? = some p) : p ∈ ps := by
  obtain ⟨hi, rfl⟩ := List.getElem?_eq_some.mp h
  exact List.getElem_mem hi

theorem allNonneg_movePair {ps : List Panel} {i j : ℕ} {p1 p2 : Panel}
    (hps : allNonneg ps) (hi : ps[i]? = some p1) (hj : ps[j]? = some p2)
    (hov : panelsOverlap p1 p2) : allNonneg (movePair ps i j p1 p2) := by
  obtain ⟨hb1, hb2, hb3, hb4⟩ := overlap_bounds hov
  have h1 := hps p1 (mem_of_getElem_eq_some hi)
  have h2 := hps p2 (mem_of_getElem_eq_some hj)
  have hoX : (0 : ℚ) ≤ min (p1.x + p1.width - p2.x) (p2.x + p2.width - p1.x) :=
    le_min (by linarith) (by linarith)
  have hoY : (0 : ℚ) ≤ min (p1.y + p1.height - p2.y) (p2.y + p2.height - p1.y) :=
    le_min (by linarith) (by linarith)
  unfold movePair
  dsimp only
  split
  · split
    · exact allNonneg_set (allNonneg_set hps ⟨le_max_left _ _, h1.2⟩)
        ⟨by dsimp only; linarith, h2.2⟩
    · exact allNonneg_set (allNonneg_set hps ⟨le_max_left _ _, h2.2⟩)
        ⟨by dsimp only; linarith, h1.2⟩
  · split
    · exact allNonneg_set (allNonneg_set hps ⟨h1.1, le_max_left _ _⟩)
        ⟨h2.1, by dsimp only; linarith⟩
    · exact allNonneg_set (allNonneg_set hps ⟨h2.1, le_max_left _ _⟩)
        ⟨h1.1, by dsimp only; linarith⟩

theorem allNonneg_pairStep (ps : List Panel) (i j : ℕ) (hps : allNonneg ps) :
    allNonneg (pairStep ps i j).1 := by
  rcases pairStep_cases ps i j with h | ⟨p1, p2, hi, hj, hov, h⟩
  · rw [h]
    exact hps
  · rw [h]
    exact allNonneg_movePair hps hi hj hov

theorem allNonneg_foldl (L : List (ℕ × ℕ)) (ps : List Panel) (b : Bool)
    (hps : allNonneg ps) : allNonneg (L.foldl passStep (ps, b)).1 := by
  induction L generalizing ps b with
  | nil => exact hps
  | cons pr L ih =>
    rw [List.foldl_cons]
    have hstep : passStep (ps, b) pr
        = ((pairStep ps pr.1 pr.2).1, b || (pairStep ps pr.1 pr.2).2) := rfl
    rw [hstep]
    exact ih _ _ (allNonneg_pairStep ps pr.1 pr.2 hps)

theorem allNonneg_resolveLoop (fuel : ℕ) :
    ∀ ps : List Panel, allNonneg ps → allNonneg (resolveLoop fuel ps).1 := by
  induction fuel with
  | zero => exact fun _ hps => hps
  | succ fuel ih =>
    intro ps hps
    cases hm : (onePass ps).2 with
    | true =>
      have hres : resolveLoop (fuel + 1) ps = resolveLoop fuel (onePass ps).1 := by
        simp [resolveLoop, hm]
      rw [hres]
      exact ih _ (allNonneg_foldl _ ps false hps)
    | false =>
      have hres : resolveLoop (fuel + 1) ps = ((onePass ps).1, true) := by
        simp [resolveLoop, hm]
      rw [hres]
      exact allNonneg_foldl _ ps false hps

theorem allNonneg_handleMouseMove (ps : List Panel) (dragIdx : ℕ) (cx cy : ℚ)
    (hps : allNonneg ps) : allNonneg (handleMouseMove ps dragIdx cx cy) := by
  unfold handleMouseMove
  cases h : ps[dragIdx]? with
  | none => exact hps
  | some dp => exact allNonneg_set hps ⟨le_max_left _ _, le_max_left _ _⟩

/-! Non-negativity of normalized y coordinates. -/

theorem foldl_min_le_init (L : List ℚ) (a : ℚ) : L.foldl min a ≤ a := by
  induction L generalizing a with
  | nil => exact le_refl a
  | cons b L ih => exact le_trans (ih (min a b)) (min_le_left a b)

theorem foldl_min_le_mem (L : List ℚ) (a x : ℚ) (hx : x ∈ L) : L.foldl min a ≤ x := by
  induction L generalizing a with
  | nil => cases hx
  | cons b L ih =>
    rcases List.mem_cons.mp hx with rfl | hx2
    · exact le_trans (foldl_min_le_init L (min a x)) (min_le_right a x)
    · exact ih _ hx2

theorem minYOf_le {l : List RawPanel} {r : RawPanel} (hr : r ∈ l) :
    minYOf l ≤ rawYOrZero r := by
  cases l with
  | nil => cases hr
  | cons a rest =>
    unfold minYOf
    rcases List.mem_cons.mp hr with rfl | hr2
    · exact foldl_min_le_init _ _
    · exact foldl_min_le_mem _ _ _ (List.mem_map_of_mem rawYOrZero hr2)

theorem numOr_cases (v : Option ℚ) (d : ℚ) :
    ((v = none ∨ v = some 0) ∧ numOr v d = d) ∨
    ∃ q, v = some q ∧ q ≠ 0 ∧ numOr v d = q := by
  unfold numOr
  rcases v with _ | q
  · exact Or.inl ⟨Or.inl rfl, rfl⟩
  · by_cases hq : q = 0
    · subst hq
      exact Or.inl ⟨Or.inr rfl, by simp⟩
    · exact Or.inr ⟨q, rfl, hq, by simp [hq]⟩

theorem add_yOffset_nonneg {l : List RawPanel} {v : ℚ}
    (h : (50 : ℚ) ≤ v ∨ minYOf l ≤ v) : 0 ≤ v + yOffsetOf l := by
  unfold yOffsetOf
  split
  · rename_i hmin
    rcases h with h | h <;> linarith
  · rename_i hmin
    push_neg at hmin
    rcases h with h | h <;> linarith

theorem normalizePanel_y_nonneg (l : List RawPanel) (i : ℕ) (h : i < l.length) :
    0 ≤ (normalizePanel (yOffsetOf l) i l[i]).y := by
  have hyv : (normalizePanel (yOffsetOf l) i l[i]).y
      = numOr (l[i]).yCoordinate (numOr (l[i]).y (((i / 10 : ℕ) : ℚ) * 120 + 50))
        + yOffsetOf l := rfl
  rw [hyv]
  have hmem : l[i] ∈ l := List.getElem_mem h
  have hfb : (50 : ℚ) ≤ ((i / 10 : ℕ) : ℚ) * 120 + 50 := by
    have : (0 : ℚ) ≤ ((i / 10 : ℕ) : ℚ) := Nat.cast_nonneg _
    linarith
  apply add_yOffset_nonneg
  rcases numOr_cases (l[i]).yCoordinate
      (numOr (l[i]).y (((i / 10 : ℕ) : ℚ) * 120 + 50)) with ⟨hc1, he1⟩ | ⟨q, hc1, hq1, he1⟩
  · rw [he1]
    rcases numOr_cases (l[i]).y (((i / 10 : ℕ) : ℚ) * 120 + 50) with ⟨hc2, he2⟩ | ⟨q, hc2, hq2, he2⟩
    · rw [he2]
      exact Or.inl hfb
    · rw [he2]
      refine Or.inr ?_
      have : rawYOrZero l[i] = q := by
        unfold rawYOrZero
        rcases hc1 with hc1 | hc1 <;> simp [numOr, hc1, hc2, hq2]
      rw [← this]
      exact minYOf_le hmem
  · rw [he1]
    refine Or.inr ?_
    have : rawYOrZero l[i] = q := by
      unfold rawYOrZero
      simp [numOr, hc1, hq1]
    rw [← this]
    exact minYOf_le hmem

/-- Claim C3 counterexample: a record with an explicit negative
`xCoordinate` (`-100`) normalizes to `x = -100 < 0`, and even the
subsequent `resolveOverlaps` leaves it negative — normalization clamps
neither coordinate, it only offsets `y`. -/
theorem claim3_counterexample :
    (loadPanelsFromApi [cexNegX])[0]!.x = -100 ∧
    ¬ (0 ≤ (loadPanelsFromApi [cexNegX])[0]!.x) ∧
    (resolveOverlaps (loadPanelsFromApi [cexNegX]))[0]!.x = -100 := by
  with_unfolding_all decide

/-- Claim C3 (amended): normalization always yields `y ≥ 0` (the
`yOffset` guarantees it), and yields `x ≥ 0` whenever every explicit
raw x-value is non-negative — a negative explicit `xCoordinate` is
preserved unclamped; given a panel set with all coordinates `≥ 0`,
both the overlap resolver and a drag placement step keep every
coordinate `≥ 0`. -/
theorem claim3_amended :
    (∀ (l : List RawPanel) (i : ℕ), i < l.length → 0 ≤ (loadPanelsFromApi l)[i]!.y) ∧
    (∀ (l : List RawPanel) (i : ℕ), i < l.length →
      (∀ v, l[i]!.xCoordinate = some v → 0 ≤ v) →
      (∀ v, l[i]!.x = some v → 0 ≤ v) →
      0 ≤ (loadPanelsFromApi l)[i]!.x) ∧
    (∀ ps : List Panel, allNonneg ps → allNonneg (resolveOverlaps ps)) ∧
    (∀ (ps : List Panel) (dragIdx : ℕ) (cx cy : ℚ), allNonneg ps →
      allNonneg (handleMouseMove ps dragIdx cx cy)) := by
  refine ⟨?_, ?_, ?_, ?_⟩
  · intro l i h
    rw [loadPanelsFromApi_getElem l i h]
    exact normalizePanel_y_nonneg l i h
  · intro l i h hxc hx
    rw [getElem!_pos l i h] at hxc hx
    rw [loadPanelsFromApi_getElem l i h]
    have hxv : (normalizePanel (yOffsetOf l) i l[i]).x
        = numOr (l[i]).xCoordinate (numOr (l[i]).x (((i % 10 : ℕ) : ℚ) * 120 + 50)) := rfl
    rw [hxv]
    have hfb : (0 : ℚ) ≤ ((i % 10 : ℕ) : ℚ) * 120 + 50 := by
      have : (0 : ℚ) ≤ ((i % 10 : ℕ) : ℚ) := Nat.cast_nonneg _
      linarith
    rcases numOr_cases (l[i]).xCoordinate
        (numOr (l[i]).x (((i % 10 : ℕ) : ℚ) * 120 + 50)) with ⟨_, he1⟩ | ⟨q, hc1, _, he1⟩
    · rw [he1]
      rcases numOr_cases (l[i]).x (((i % 10 : ℕ) : ℚ) * 120 + 50) with ⟨_, he2⟩ | ⟨q, hc2, _, he2⟩
      · rw [he2]
        exact hfb
      · rw [he2]
        exact hx q hc2
    · rw [he1]
      exact hxc q hc1
  · intro ps hps
    exact allNonneg_resolveLoop 100 ps hps
  · intro ps dragIdx cx cy hps
    exact allNonneg_handleMouseMove ps dragIdx cx cy hps

theorem claim3_amended_witness :
    0 ≤ (loadPanelsFromApi [c8raw])[0]!.y ∧
    0 ≤ (loadPanelsFromApi [c7raw])[0]!.x ∧
    allNonneg (resolveOverlaps [cexO1, cexO2]) ∧
    allNonneg (handleMouseMove [cexA, cexB, cexD] 2 100 10) :=
  ⟨claim3_amended.1 [c8raw] 0 (by decide),
   claim3_amended.2.1 [c7raw] 0 (by decide)
     (by
       intro v hv
       have h0 : (([c7raw] : List RawPanel))[0]!.xCoordinate = none := by
         with_unfolding_all decide
       rw [h0] at hv
       exact Option.noConfusion hv)
     (by
       intro v hv
       have h0 : (([c7raw] : List RawPanel))[0]!.x = none := by
         with_unfolding_all decide
       rw [h0] at hv
       exact Option.noConfusion hv),
   claim3_amended.2.2.1 [cexO1, cexO2] (by with_unfolding_all decide),
   claim3_amended.2.2.2 [cexA, cexB, cexD] 2 100 10 (by with_unfolding_all decide)⟩


/-! The drag placement step. -/

theorem handleMouseMove_eq (ps : List Panel) (dragIdx : ℕ) (cx cy : ℚ) (dp : Panel)
    (hdp : ps[dragIdx]? = some dp) :
    handleMouseMove ps dragIdx cx cy =
      ps.set dragIdx
        { dp with
          x := max 0 (ps.enum.foldl (dragAdjust dragIdx dp.width dp.height)
            (max 0 cx, max 0 cy)).1,
          y := max 0 (ps.enum.foldl (dragAdjust dragIdx dp.width dp.height)
            (max 0 cx, max 0 cy)).2 } := by
  unfold handleMouseMove
  rw [hdp]

theorem dragAdjust_foldl_id (dragIdx : ℕ) (dw dh : ℚ) (L : List (ℕ × Panel)) (x y : ℚ)
    (h : ∀ e ∈ L, e.1 = dragIdx ∨ ¬ panelsOverlap (candidateRect x y dw dh) e.2) :
    L.foldl (dragAdjust dragIdx dw dh) (x, y) = (x, y) := by
  induction L with
  | nil => rfl
  | cons e L ih =>
    rw [List.foldl_cons]
    have he : dragAdjust dragIdx dw dh (x, y) e = (x, y) := by
      rcases h e (List.mem_cons_self e L) with h1 | h1
      · simp [dragAdjust, h1]
      · by_cases h2 : e.1 = dragIdx
        · simp [dragAdjust, h2]
        · simp [dragAdjust, h2, h1]
    rw [he]
    exact ih fun q hq => h q (List.mem_cons_of_mem e hq)

theorem max_zero_idem (a : ℚ) : max 0 (max 0 a) = max 0 a := by
  rw [← max_assoc, max_self]

/-- Claim C2 (amended): a drag placement step preserves the pairwise
non-overlap invariant when the clamped candidate position triggers no
push-out correction — that is, when it overlaps no other panel.  (The
claim is false in general: a correction against one panel can land the
dragged panel on an already-checked panel, see the counterexample.) -/
theorem claim2_amended (ps : List Panel) (dragIdx : ℕ) (cx cy : ℚ) (dp : Panel)
    (hdp : ps[dragIdx]? = some dp)
    (hothers : ∀ i j (hi : i < ps.length) (hj : j < ps.length),
      i ≠ dragIdx → j ≠ dragIdx → i < j → ¬ panelsOverlap ps[i] ps[j])
    (hnc : ∀ i (hi : i < ps.length), i ≠ dragIdx →
      ¬ panelsOverlap (candidateRect (max 0 cx) (max 0 cy) dp.width dp.height) ps[i]) :
    ∀ i j, i ≠ j → i < (handleMouseMove ps dragIdx cx cy).length →
      j < (handleMouseMove ps dragIdx cx cy).length →
      ¬ panelsOverlap ((handleMouseMove ps dragIdx cx cy)[i]!)
        ((handleMouseMove ps dragIdx cx cy)[j]!) := by
  have hdl : dragIdx < ps.length := (List.getElem?_eq_some.mp hdp).1
  have hfold : ps.enum.foldl (dragAdjust dragIdx dp.width dp.height) (max 0 cx, max 0 cy)
      = (max 0 cx, max 0 cy) := by
    apply dragAdjust_foldl_id
    intro e he
    obtain ⟨k, p⟩ := e
    obtain ⟨hk, hp⟩ := List.mem_enum he
    by_cases hd : k = dragIdx
    · exact Or.inl hd
    · refine Or.inr ?_
      rw [hp]
      exact hnc k hk hd
  have hres : handleMouseMove ps dragIdx cx cy
      = ps.set dragIdx { dp with x := max 0 cx, y := max 0 cy } := by
    rw [handleMouseMove_eq ps dragIdx cx cy dp hdp, hfold]
    dsimp only
    rw [max_zero_idem, max_zero_idem]
  intro i j hne hi hj
  rw [hres] at hi hj ⊢
  rw [List.length_set] at hi hj
  rw [getElem!_pos _ i (by rw [List.length_set]; exact hi),
      getElem!_pos _ j (by rw [List.length_set]; exact hj)]
  by_cases hdi : i = dragIdx
  · subst hdi
    have hdj : j ≠ i := Ne.symm hne
    rw [List.getElem_set_self, List.getElem_set_ne fun h => hdj h.symm]
    intro hov
    exact hnc j hj hdj ((panelsOverlap_congr rfl rfl rfl rfl rfl rfl rfl rfl).mp hov)
  · by_cases hdj : j = dragIdx
    · subst hdj
      rw [List.getElem_set_self, List.getElem_set_ne fun h => hdi h.symm]
      intro hov
      exact hnc i hi hdi
        ((panelsOverlap_congr rfl rfl rfl rfl rfl rfl rfl rfl).mp (panelsOverlap_symm hov))
    · rw [List.getElem_set_ne fun h => hdi h.symm, List.getElem_set_ne fun h => hdj h.symm]
      rcases Nat.lt_or_ge i j with hij | hge
      · exact hothers i j hi hj hdi hdj hij
      · have hji : j < i := lt_of_le_of_ne hge (Ne.symm hne)
        intro hov
        exact hothers j i hj hi hdj hdi hji (panelsOverlap_symm hov)

theorem claim2_amended_witness :
    ¬ panelsOverlap ((handleMouseMove [cexA, cexD] 1 500 500)[0]!)
      ((handleMouseMove [cexA, cexD] 1 500 500)[1]!) :=
  claim2_amended [cexA, cexD] 1 500 500 cexD (by with_unfolding_all decide)
    (by
      intro i j hi hj hid hjd hij
      have hi2 : i < 2 := by simpa using hi
      have hj2 : j < 2 := by simpa using hj
      exact absurd hij (by omega))
    (by
      intro i hi hid
      have hi2 : i < 2 := by simpa using hi
      have hz : i = 0 := by omega
      subst hz
      show ¬ panelsOverlap (candidateRect (max 0 500) (max 0 500) cexD.width cexD.height) cexA
      with_unfolding_all decide)
    0 1 (by decide) (by with_unfolding_all decide) (by with_unfolding_all decide)

/-- Claim C2 counterexample: with `cexA` and `cexB` disjoint and the
dragged panel `cexD` initially overlapping nothing, a drag step whose
candidate overlaps only `cexB` is pushed left out of `cexB` — straight
onto `cexA`, which the loop had already checked.  The step therefore
ends with two overlapping panels. -/
theorem claim2_counterexample :
    (¬ panelsOverlap cexA cexB ∧ ¬ panelsOverlap cexD cexA ∧ ¬ panelsOverlap cexD cexB) ∧
    panelsOverlap ((handleMouseMove [cexA, cexB, cexD] 2 100 10)[2]!)
      ((handleMouseMove [cexA, cexB, cexD] 2 100 10)[0]!) := by
  with_unfolding_all decide

/-! The export / local re-import round trip. -/

theorem jsNumOr_zero (a : ℚ) : jsNumOr a 0 = a := by
  unfold jsNumOr
  split
  · rename_i h
    exact h.symm
  · rfl

theorem exportPanelLayout_length (ps : List Panel) :
    (exportPanelLayout ps).length = ps.length := by
  simp [exportPanelLayout]

theorem exportPanelLayout_getElem (ps : List Panel) (i : ℕ) (h : i < ps.length) :
    (exportPanelLayout ps)[i]! =
      { id := ps[i].id, x := ps[i].x, y := ps[i].y, width := ps[i].width,
        height := ps[i].height, planeRotation := ps[i].planeRotation,
        inverterSerialNumber := ps[i].inverterSerialNumber,
        serialNumber := ps[i].serialNumber } := by
  have hlen : i < (exportPanelLayout ps).length := by
    rw [exportPanelLayout_length]
    exact h
  rw [getElem!_pos (exportPanelLayout ps) i hlen]
  unfold exportPanelLayout
  rw [List.getElem_map]

theorem loadLocalLayout_length (records : List ExportRecord) :
    (loadLocalLayout records).length = records.length := by
  simp [loadLocalLayout, List.length_map, List.enum_length]

theorem loadLocalLayout_getElem (records : List ExportRecord) (i : ℕ)
    (h : i < records.length) :
    (loadLocalLayout records)[i]! = loadLocalRecord i records[i] := by
  have hlen : i < (loadLocalLayout records).length := by
    rw [loadLocalLayout_length]
    exact h
  rw [getElem!_pos (loadLocalLayout records) i hlen]
  unfold loadLocalLayout
  rw [List.getElem_map, List.getElem_enum]

theorem loadPanelLayoutLocal_eq (records : List ExportRecord)
    (h : ¬ (loadLocalLayout records).length = 0) :
    loadPanelLayoutLocal records = resolveOverlaps (loadLocalLayout records) := by
  unfold loadPanelLayoutLocal
  dsimp only
  rw [if_neg h]

theorem resolveOverlaps_of_separated {ps : List Panel}
    (h : ∀ i j (hi : i < ps.length) (hj : j < ps.length), i < j → ¬ panelsOverlap ps[i] ps[j]) :
    resolveOverlaps ps = ps := by
  have hop : onePass ps = (ps, false) := onePass_of_separated h
  show (resolveLoop (99 + 1) ps).1 = ps
  show (if (onePass ps).2 = true then resolveLoop 99 (onePass ps).1
    else ((onePass ps).1, true)).1 = ps
  rw [hop]
  simp

/-- Claim C5 (amended): exporting a panel set whose panels have
nonzero width and height, a non-empty id, and pairwise non-overlapping
effective rectangles, and re-loading the export through the static
local-layout path (including its `resolveOverlaps` call) preserves
every panel's `id`, `x`, `y`, `width`, `height` and `planeRotation`.
(The unconditional claim is false: the re-load calls
`resolveOverlaps`, which displaces any panels that overlap — see the
counterexample.) -/
theorem claim5_amended (ps : List Panel) (hne : ps ≠ [])
    (hfields : ∀ p ∈ ps, p.width ≠ 0 ∧ p.height ≠ 0 ∧ p.id ≠ "")
    (hsep : ∀ i j (hi : i < ps.length) (hj : j < ps.length), i < j → ¬ panelsOverlap ps[i] ps[j]) :
    (loadPanelLayoutLocal (exportPanelLayout ps)).length = ps.length ∧
    ∀ i, i < ps.length →
      (loadPanelLayoutLocal (exportPanelLayout ps))[i]!.id = ps[i]!.id ∧
      (loadPanelLayoutLocal (exportPanelLayout ps))[i]!.x = ps[i]!.x ∧
      (loadPanelLayoutLocal (exportPanelLayout ps))[i]!.y = ps[i]!.y ∧
      (loadPanelLayoutLocal (exportPanelLayout ps))[i]!.width = ps[i]!.width ∧
      (loadPanelLayoutLocal (exportPanelLayout ps))[i]!.height = ps[i]!.height ∧
      (loadPanelLayoutLocal (exportPanelLayout ps))[i]!.planeRotation = ps[i]!.planeRotation := by
  have hqlen : (loadLocalLayout (exportPanelLayout ps)).length = ps.length := by
    rw [loadLocalLayout_length, exportPanelLayout_length]
  have hq : ∀ i (hi : i < ps.length),
      (loadLocalLayout (exportPanelLayout ps))[i]!.id = ps[i].id ∧
      (loadLocalLayout (exportPanelLayout ps))[i]!.x = ps[i].x ∧
      (loadLocalLayout (exportPanelLayout ps))[i]!.y = ps[i].y ∧
      (loadLocalLayout (exportPanelLayout ps))[i]!.width = ps[i].width ∧
      (loadLocalLayout (exportPanelLayout ps))[i]!.height = ps[i].height ∧
      (loadLocalLayout (exportPanelLayout ps))[i]!.planeRotation = ps[i].planeRotation := by
    intro i hi
    have hie : i < (exportPanelLayout ps).length := by
      rw [exportPanelLayout_length]
      exact hi
    rw [loadLocalLayout_getElem _ i hie, ← getElem!_pos (exportPanelLayout ps) i hie,
        exportPanelLayout_getElem ps i hi]
    obtain ⟨hw, hh, hid⟩ := hfields ps[i] (List.getElem_mem hi)
    dsimp only [loadLocalRecord]
    refine ⟨?_, jsNumOr_zero _, jsNumOr_zero _, ?_, ?_, jsNumOr_zero _⟩
    · unfold jsStrOr
      rw [if_neg hid]
    · unfold jsNumOr
      rw [if_neg hw]
    · unfold jsNumOr
      rw [if_neg hh]
  have hqsep : ∀ i j (hi : i < (loadLocalLayout (exportPanelLayout ps)).length)
      (hj : j < (loadLocalLayout (exportPanelLayout ps)).length), i < j →
      ¬ panelsOverlap (loadLocalLayout (exportPanelLayout ps))[i]
        (loadLocalLayout (exportPanelLayout ps))[j] := by
    intro i j hi hj hij
    have hi2 : i < ps.length := hqlen ▸ hi
    have hj2 : j < ps.length := hqlen ▸ hj
    rw [← getElem!_pos (loadLocalLayout (exportPanelLayout ps)) i hi,
        ← getElem!_pos (loadLocalLayout (exportPanelLayout ps)) j hj]
    obtain ⟨_, hx1, hy1, hw1, hh1, _⟩ := hq i hi2
    obtain ⟨_, hx2, hy2, hw2, hh2, _⟩ := hq j hj2
    rw [panelsOverlap_congr hx1 hy1 hw1 hh1 hx2 hy2 hw2 hh2]
    exact hsep i j hi2 hj2 hij
  have hne2 : ¬ (loadLocalLayout (exportPanelLayout ps)).length = 0 := by
    rw [hqlen]
    intro h0
    exact hne (List.length_eq_zero.mp h0)
  have hfix : loadPanelLayoutLocal (exportPanelLayout ps)
      = loadLocalLayout (exportPanelLayout ps) := by
    rw [loadPanelLayoutLocal_eq _ hne2]
    exact resolveOverlaps_of_separated hqsep
  refine ⟨by rw [hfix]; exact hqlen, ?_⟩
  intro i hi
  rw [hfix, getElem!_pos ps i hi]
  exact hq i hi

theorem claim5_amended_witness :
    (loadPanelLayoutLocal (exportPanelLayout [cexA, cexB])).length = [cexA, cexB].length ∧
    ((loadPanelLayoutLocal (exportPanelLayout [cexA, cexB]))[0]!.id = [cexA, cexB][0]!.id ∧
     (loadPanelLayoutLocal (exportPanelLayout [cexA, cexB]))[0]!.x = [cexA, cexB][0]!.x ∧
     (loadPanelLayoutLocal (exportPanelLayout [cexA, cexB]))[0]!.y = [cexA, cexB][0]!.y ∧
     (loadPanelLayoutLocal (exportPanelLayout [cexA, cexB]))[0]!.width = [cexA, cexB][0]!.width ∧
     (loadPanelLayoutLocal (exportPanelLayout [cexA, cexB]))[0]!.height
       = [cexA, cexB][0]!.height ∧
     (loadPanelLayoutLocal (exportPanelLayout [cexA, cexB]))[0]!.planeRotation
       = [cexA, cexB][0]!.planeRotation) :=
  have hsep : ∀ i j (hi : i < ([cexA, cexB] : List Panel).length)
      (hj : j < ([cexA, cexB] : List Panel).length), i < j →
      ¬ panelsOverlap ([cexA, cexB] : List Panel)[i] ([cexA, cexB] : List Panel)[j] := by
    intro i j hi hj hij
    have hi2 : i < 2 := by simpa using hi
    have hj2 : j < 2 := by simpa using hj
    have hz : i = 0 ∧ j = 1 := by omega
    obtain ⟨rfl, rfl⟩ := hz
    show ¬ panelsOverlap cexA cexB
    with_unfolding_all decide
  ⟨(claim5_amended [cexA, cexB] (by decide) (by with_unfolding_all decide) hsep).1,
   (claim5_amended [cexA, cexB] (by decide) (by with_unfolding_all decide) hsep).2 0 (by decide)⟩

/-- Claim C5 counterexample: a canonical panel set may contain
overlapping panels (the invariant is only best-effort), and for such a
set the round trip is not the identity: two coincident 80 by 120
panels are separated by the `resolveOverlaps` call of the re-load
path, moving panel 0 from `x = 0` to `x = 675/8`. -/
theorem claim5_counterexample :
    (loadPanelLayoutLocal (exportPanelLayout [cexO1, cexO2]))[0]!.x = 675 / 8 ∧
    cexO1.x = 0 ∧
    (loadPanelLayoutLocal (exportPanelLayout [cexO1, cexO2]))[0]!.x ≠ cexO1.x := by
  with_unfolding_all decide

end SolarPaneler
